import Mathlib

/-!
Verification of `pkg/security/security.go` (Istio security package).

The Go file declares constants, the `Options`/`SecretItem`/`Caller` data
model, the `SecretManager`/`Client`/`TokenExchanger`/`CredFetcher`
interfaces, and two concrete functions `ExtractBearerToken` and
`ExtractRequestToken`.  Those two functions and the constants are embedded
below directly from the source.  The secret-issuance and rotation logic is
only *declared* in this file (the `SecretManager` and `Client` interfaces);
its behaviour is modelled from the specification where a claim needs it,
and each such definition is marked `Modelled from the spec:`.

Conventions of the embedding:
* Go `string` is Lean `String`; byte slices are `List Nat`.
* A Go function returning `(string, error)` becomes `String × Option String`
  where the second component is `some errorMessage` exactly when the Go
  function returns a non-nil error (Go returns `""` for the string in every
  error path of the embedded functions, and the embedding reproduces that).
* gRPC incoming metadata is an association list `String → List String`;
  `metadata.FromIncomingContext` returning `ok = false` is modelled by the
  whole context being `none`.
* `time.Time` instants are rationals (seconds); durations are rationals.
-/

/-- Go constant `RootCertReqResourceName` (security.go line 47). -/
def RootCertReqResourceName : String := "ROOTCA"

/-- Go constant `WorkloadKeyCertResourceName` (security.go line 52). -/
def WorkloadKeyCertResourceName : String := "default"

/-- Go constant `BearerTokenPrefix` (security.go line 85): the scheme tag
checked by both extractors. -/
def BearerTokenPfx : String := "Bearer "

/-- Go constant `K8sTokenPrefix` (security.go line 87). -/
def K8sTokenPfx : String := "Istio "

/-- Go constant `authorizationMeta` (security.go line 304). -/
def authorizationMeta : String := "authorization"

/-- Go `strings.HasPrefix s p`: `p` is a leading segment of `s`. -/
def hasPfx (s p : String) : Bool := p.data.isPrefixOf s.data

/-- Go `strings.TrimPrefix s p`: drop `p` from the front of `s` when it is
present, otherwise return `s` unchanged. -/
def trimPfx (s p : String) : String :=
  if hasPfx s p then ⟨s.data.drop p.data.length⟩ else s

/-- gRPC incoming metadata: a map from keys to lists of values, as an
association list (Go `metadata.MD`). -/
abbrev MD := List (String × List String)

/-- The loop of `ExtractBearerToken` over the values of the
`authorization` metadata key (security.go lines 330-336): return the first
value carrying the bearer scheme tag, with the tag stripped, else the
"no bearer token" error. -/
def findBearer : List String → String × Option String
  | [] => ("", some "no bearer token exists in HTTP authorization header")
  | v :: rest =>
    if hasPfx v BearerTokenPfx then (trimPfx v BearerTokenPfx, none)
    else findBearer rest

/-- Go `ExtractBearerToken` (security.go lines 319-337).  The context is
`none` when no incoming metadata is attached. -/
def ExtractBearerToken (ctx : Option MD) : String × Option String :=
  match ctx with
  | none => ("", some "no metadata is attached")
  | some md =>
    match md.lookup authorizationMeta with
    | none => ("", some "no HTTP authorization header exists")
    | some authHeader => findBearer authHeader

/-- HTTP request headers, as an association list from header name to its
values (Go `http.Header`). -/
abbrev HttpHeader := List (String × List String)

/-- Go `http.Header.Get`: the first value associated with the key, or `""`
when the key is absent or has no values. -/
def headerGet (h : HttpHeader) (key : String) : String :=
  match h.lookup key with
  | some (v :: _) => v
  | _ => ""

/-- Go `ExtractRequestToken` (security.go lines 339-353), with the request
represented by its header map. -/
def ExtractRequestToken (req : HttpHeader) : String × Option String :=
  let value := headerGet req authorizationMeta
  if value = "" then ("", some "no HTTP authorization header exists")
  else if hasPfx value BearerTokenPfx then (trimPfx value BearerTokenPfx, none)
  else if hasPfx value K8sTokenPfx then (trimPfx value K8sTokenPfx, none)
  else ("", some "no bearer token exists in HTTP authorization header")

/-- Go struct `SecretItem` (security.go lines 265-279): the cached unit of
the secret store.  Byte slices are `List Nat`; the two `time.Time` fields
are rational instants in seconds. -/
structure SecretItem where
  CertificateChain : List Nat
  PrivateKey : List Nat
  RootCert : List Nat
  ResourceName : String
  CreatedTime : ℚ
  ExpireTime : ℚ
deriving DecidableEq

/-- Modelled from the spec: the signing path of `GenerateSecret` (the
`SecretManager` implementation is not part of this file, only its
interface is).  Per spec section 4.1, a successful issuance at instant
`now` with the configured TTL `ttl` constructs a fresh `SecretItem` whose
expiry is `now + ttl`. -/
def issueSecret (resourceName : String) (key chain root : List Nat)
    (now ttl : ℚ) : SecretItem :=
  { CertificateChain := chain
    PrivateKey := key
    RootCert := root
    ResourceName := resourceName
    CreatedTime := now
    ExpireTime := now + ttl }

/-- Modelled from the spec: the background rotation schedule of the Secret
Lifecycle Manager (not part of this file).  Per spec section 4.1 the
rotation task wakes `TTL × (1 − g)` after creation, where `g` is
`Options.SecretRotationGracePeriodRatio` (security.go line 158). -/
def rotationTriggerTime (created ttl g : ℚ) : ℚ := created + ttl * (1 - g)

/-- Modelled from the spec: atomically replacing the cache entry for a
resource name with a freshly issued `SecretItem` (spec section 4.1: the new
item supersedes any previous entry for that name). -/
def cacheSet (cache : String → Option SecretItem) (resourceName : String)
    (item : SecretItem) : String → Option SecretItem :=
  fun r => if r = resourceName then some item else cache r

/-- Modelled from the spec: the observable state of the per-resource-name
single-flight issuance coordinator of the Secret Lifecycle Manager (spec
sections 4.1 and 5; the implementation is not part of this file).
`csrSignCalls r` counts the invocations of the CA `Client.CSRSign`
operation issued on behalf of resource name `r`; `inflight r` is the list
of caller ids joined to the in-flight issuance for `r`, when one exists;
`delivered c` is the `SecretItem` handed to caller `c`, once any. -/
structure SFState where
  cache : String → Option SecretItem
  inflight : String → Option (List Nat)
  csrSignCalls : String → Nat
  delivered : Nat → Option SecretItem

/-- Modelled from the spec: a caller `c` invokes `GenerateSecret r`.  A
live cached item is returned at once; otherwise the caller joins the
in-flight issuance for `r` when one exists, and starts one (exactly one
`CSRSign` call) when none does. -/
def sfRequest (st : SFState) (c : Nat) (r : String) : SFState :=
  match st.cache r with
  | some item =>
    { st with delivered := fun c2 => if c2 = c then some item else st.delivered c2 }
  | none =>
    match st.inflight r with
    | some waiters =>
      { st with inflight := fun r2 => if r2 = r then some (c :: waiters) else st.inflight r2 }
    | none =>
      { st with
        inflight := fun r2 => if r2 = r then some [c] else st.inflight r2
        csrSignCalls := fun r2 => if r2 = r then st.csrSignCalls r2 + 1 else st.csrSignCalls r2 }

/-- Modelled from the spec: the single `CSRSign` call for resource name `r`
completes with `item`; the result is cached and broadcast to every joined
caller, and the in-flight entry is cleared. -/
def sfComplete (st : SFState) (r : String) (item : SecretItem) : SFState :=
  match st.inflight r with
  | none => st
  | some waiters =>
    { cache := fun r2 => if r2 = r then some item else st.cache r2
      inflight := fun r2 => if r2 = r then none else st.inflight r2
      csrSignCalls := st.csrSignCalls
      delivered := fun c => if waiters.contains c then some item else st.delivered c }

/-- Modelled from the spec: a batch of concurrent callers `cs`, all
requesting resource name `r`, interleaved in the given arrival order. -/
def sfRequestAll (st : SFState) (cs : List Nat) (r : String) : SFState :=
  cs.foldl (fun s c => sfRequest s c r) st

/-- Modelled from the spec: the initial coordinator state — an empty
cache, no issuance in flight, no `CSRSign` call made, nothing
delivered. -/
def sfInit : SFState :=
  { cache := fun _ => none
    inflight := fun _ => none
    csrSignCalls := fun _ => 0
    delivered := fun _ => none }

/-! ### Helper lemmas about the embedded string primitives -/

theorem hasPfx_iff (s p : String) : hasPfx s p = true ↔ p.data <+: s.data := by
  simp [hasPfx]

theorem hasPfx_clash (s p q : String) (hp : hasPfx s p = true)
    (h1 : ¬ p.data <+: q.data) (h2 : ¬ q.data <+: p.data) :
    hasPfx s q = false := by
  by_contra hq
  rw [Bool.not_eq_false, hasPfx_iff] at hq
  rw [hasPfx_iff] at hp
  rcases List.prefix_or_prefix_of_prefix hp hq with h | h
  · exact h1 h
  · exact h2 h

theorem findBearer_of_none (vs : List String)
    (h : ∀ v ∈ vs, hasPfx v BearerTokenPfx = false) :
    findBearer vs = ("", some "no bearer token exists in HTTP authorization header") := by
  induction vs with
  | nil => rfl
  | cons v rest ih =>
    have hv := h v (by simp)
    simp only [findBearer, hv, Bool.false_eq_true, if_false]
    exact ih fun w hw => h w (by simp [hw])

theorem findBearer_of_find (vs : List String) (v : String)
    (h : vs.find? (fun x => hasPfx x BearerTokenPfx) = some v) :
    findBearer vs = (trimPfx v BearerTokenPfx, none) := by
  induction vs with
  | nil => simp at h
  | cons w rest ih =>
    by_cases hw : hasPfx w BearerTokenPfx = true
    · simp only [List.find?_cons, hw] at h
      obtain rfl : w = v := Option.some.inj h
      simp [findBearer, hw]
    · simp only [List.find?_cons, hw] at h
      simp only [findBearer, hw, if_false]
      exact ih h

theorem findBearer_fst_of_err (vs : List String) (t e : String)
    (h : findBearer vs = (t, some e)) : t = "" := by
  induction vs with
  | nil =>
    have := congrArg Prod.fst h
    simpa [findBearer] using this.symm
  | cons w rest ih =>
    by_cases hw : hasPfx w BearerTokenPfx = true
    · simp [findBearer, hw] at h
    · simp only [findBearer, hw, if_false] at h
      exact ih h

theorem findBearer_all_false_of_err (vs : List String) (t e : String)
    (h : findBearer vs = (t, some e)) :
    ∀ v ∈ vs, hasPfx v BearerTokenPfx = false := by
  induction vs with
  | nil => simp
  | cons w rest ih =>
    by_cases hw : hasPfx w BearerTokenPfx = true
    · simp [findBearer, hw] at h
    · intro v hv
      rcases List.mem_cons.mp hv with rfl | hv2
      · simpa using hw
      · simp only [findBearer, hw, if_false] at h
        exact ih h v hv2

/-! ### Claims about the token extractors -/

/-- Claim C2: for every context whose incoming gRPC metadata contains the
key "authorization", `ExtractBearerToken` returns, with nil error, the
first value of that key carrying the "Bearer " scheme tag, with the tag
stripped. -/
theorem extractBearerToken_first_bearer (md : MD) (vs : List String) (v : String)
    (h1 : md.lookup authorizationMeta = some vs)
    (h2 : vs.find? (fun x => hasPfx x BearerTokenPfx) = some v) :
    ExtractBearerToken (some md) = (trimPfx v BearerTokenPfx, none) := by
  simp only [ExtractBearerToken, h1]
  exact findBearer_of_find vs v h2

/-- Witness for C2: metadata authorization ["Bearer abc123"] yields
"abc123" with nil error. -/
theorem extractBearerToken_first_bearer_witness :
    ExtractBearerToken (some [("authorization", ["Bearer abc123"])]) = ("abc123", none) := by
  rw [extractBearerToken_first_bearer [("authorization", ["Bearer abc123"])]
    ["Bearer abc123"] "Bearer abc123" (by decide) (by decide)]
  decide

/-- Claim C3: `ExtractBearerToken` fails exactly when no token can be
extracted, with the specified error message for each case (no metadata, no
authorization key, no value with the bearer scheme tag), and the returned
token is empty in every error case. -/
theorem extractBearerToken_errors (ctx : Option MD) :
    (ctx = none → ExtractBearerToken ctx = ("", some "no metadata is attached"))
    ∧ (∀ md, ctx = some md → md.lookup authorizationMeta = none →
        ExtractBearerToken ctx = ("", some "no HTTP authorization header exists"))
    ∧ (∀ md vs, ctx = some md → md.lookup authorizationMeta = some vs →
        (∀ v ∈ vs, hasPfx v BearerTokenPfx = false) →
        ExtractBearerToken ctx
          = ("", some "no bearer token exists in HTTP authorization header"))
    ∧ (∀ t e, ExtractBearerToken ctx = (t, some e) → t = "")
    ∧ ((ExtractBearerToken ctx).2 = none ∨ ctx = none
        ∨ ∃ md, ctx = some md
            ∧ (md.lookup authorizationMeta = none
                ∨ ∃ vs, md.lookup authorizationMeta = some vs
                    ∧ ∀ v ∈ vs, hasPfx v BearerTokenPfx = false)) := by
  refine ⟨?_, ?_, ?_, ?_, ?_⟩
  · rintro rfl; rfl
  · rintro md rfl hmd
    simp [ExtractBearerToken, hmd]
  · rintro md vs rfl hmd hall
    simp only [ExtractBearerToken, hmd]
    exact findBearer_of_none vs hall
  · intro t e h
    match ctx with
    | none =>
      have := congrArg Prod.fst h
      simpa [ExtractBearerToken] using this.symm
    | some md =>
      simp only [ExtractBearerToken] at h
      match hmd : md.lookup authorizationMeta with
      | none =>
        rw [hmd] at h
        have := congrArg Prod.fst h
        simpa using this.symm
      | some vs =>
        rw [hmd] at h
        exact findBearer_fst_of_err vs t e h
  · match ctx with
    | none => exact Or.inr (Or.inl rfl)
    | some md =>
      match hmd : md.lookup authorizationMeta with
      | none => exact Or.inr (Or.inr ⟨md, rfl, Or.inl hmd⟩)
      | some vs =>
        match hfb : findBearer vs with
        | (t, none) =>
          left
          simp [ExtractBearerToken, hmd, hfb]
        | (t, some e) =>
          refine Or.inr (Or.inr ⟨md, rfl, Or.inr ⟨vs, hmd, ?_⟩⟩)
          exact findBearer_all_false_of_err vs t e hfb

/-- Witness for C3: a value without the bearer scheme tag produces the
"no bearer token" error with an empty token. -/
theorem extractBearerToken_errors_witness :
    ExtractBearerToken (some [("authorization", ["Basic zzz"])])
      = ("", some "no bearer token exists in HTTP authorization header") :=
  (extractBearerToken_errors (some [("authorization", ["Basic zzz"])])).2.2.1
    [("authorization", ["Basic zzz"])] ["Basic zzz"] rfl (by decide) (by decide)

/-- Claim C6: the reserved resource names are recognized verbatim. -/
theorem reserved_resource_names :
    RootCertReqResourceName = "ROOTCA" ∧ WorkloadKeyCertResourceName = "default" :=
  ⟨rfl, rfl⟩

/-- Claim C10: an authorization value consisting of exactly the scheme tag
and nothing more is accepted with an empty token and nil error. -/
theorem pfx_only_value_accepted :
    ExtractRequestToken [("authorization", ["Bearer "])] = ("", none)
    ∧ ExtractRequestToken [("authorization", ["Istio "])] = ("", none)
    ∧ ExtractBearerToken (some [("authorization", ["Bearer "])]) = ("", none) :=
  ⟨by decide, by decide, by decide⟩

/-- Claim C4: for every HTTP request whose authorization header value
carries the "Bearer " or the "Istio " scheme tag, `ExtractRequestToken`
returns that value with the matching tag stripped and nil error. -/
theorem extractRequestToken_ok (req : HttpHeader) (v : String)
    (hv : headerGet req authorizationMeta = v) :
    (hasPfx v BearerTokenPfx = true →
      ExtractRequestToken req = (trimPfx v BearerTokenPfx, none))
    ∧ (hasPfx v K8sTokenPfx = true →
      ExtractRequestToken req = (trimPfx v K8sTokenPfx, none)) := by
  constructor
  · intro hb
    have hne : ¬ v = "" := by
      rintro rfl; exact absurd hb (by decide)
    simp [ExtractRequestToken, hv, hne, hb]
  · intro hk
    have hne : ¬ v = "" := by
      rintro rfl; exact absurd hk (by decide)
    have hb : hasPfx v BearerTokenPfx = false :=
      hasPfx_clash v K8sTokenPfx BearerTokenPfx hk (by decide) (by decide)
    simp [ExtractRequestToken, hv, hne, hb, hk]

/-- Witness for C4: header value "Istio xyz" yields "xyz"; header value
"Bearer abc" yields "abc". -/
theorem extractRequestToken_ok_witness :
    ExtractRequestToken [("authorization", ["Istio xyz"])] = ("xyz", none)
    ∧ ExtractRequestToken [("authorization", ["Bearer abc"])] = ("abc", none) := by
  constructor
  · rw [(extractRequestToken_ok [("authorization", ["Istio xyz"])] "Istio xyz"
      (by decide)).2 (by decide)]
    decide
  · rw [(extractRequestToken_ok [("authorization", ["Bearer abc"])] "Bearer abc"
      (by decide)).1 (by decide)]
    decide

/-- Claim C5: `ExtractRequestToken` fails exactly when the authorization
header value is empty (error "no HTTP authorization header exists") or
when the non-empty value carries neither scheme tag (error "no bearer
token exists ..."), and the returned token is empty in every error
case. -/
theorem extractRequestToken_errors (req : HttpHeader) :
    (headerGet req authorizationMeta = "" →
      ExtractRequestToken req = ("", some "no HTTP authorization header exists"))
    ∧ (∀ v, headerGet req authorizationMeta = v → v ≠ "" →
        hasPfx v BearerTokenPfx = false → hasPfx v K8sTokenPfx = false →
        ExtractRequestToken req
          = ("", some "no bearer token exists in HTTP authorization header"))
    ∧ (∀ t e, ExtractRequestToken req = (t, some e) → t = "")
    ∧ ((ExtractRequestToken req).2 = none
        ∨ headerGet req authorizationMeta = ""
        ∨ (hasPfx (headerGet req authorizationMeta) BearerTokenPfx = false
            ∧ hasPfx (headerGet req authorizationMeta) K8sTokenPfx = false)) := by
  refine ⟨?_, ?_, ?_, ?_⟩
  · intro h0
    simp [ExtractRequestToken, h0]
  · rintro v hv hne hb hk
    simp [ExtractRequestToken, hv, hne, hb, hk]
  · intro t e h
    by_cases h0 : headerGet req authorizationMeta = ""
    · simp only [ExtractRequestToken, h0, if_pos] at h
      exact (Prod.mk.injEq .. ▸ h).1.symm
    · by_cases hb : hasPfx (headerGet req authorizationMeta) BearerTokenPfx = true
      · simp [ExtractRequestToken, h0, hb] at h
      · by_cases hk : hasPfx (headerGet req authorizationMeta) K8sTokenPfx = true
        · simp [ExtractRequestToken, h0, hb, hk] at h
        · simp only [ExtractRequestToken, h0, hb, hk, Bool.false_eq_true, if_false] at h
          exact (Prod.mk.injEq .. ▸ h).1.symm
  · by_cases h0 : headerGet req authorizationMeta = ""
    · exact Or.inr (Or.inl h0)
    · by_cases hb : hasPfx (headerGet req authorizationMeta) BearerTokenPfx = true
      · exact Or.inl (by simp [ExtractRequestToken, h0, hb])
      · by_cases hk : hasPfx (headerGet req authorizationMeta) K8sTokenPfx = true
        · exact Or.inl (by simp [ExtractRequestToken, h0, hb, hk])
        · exact Or.inr (Or.inr ⟨by simpa using hb, by simpa using hk⟩)

/-- Witness for C5: a request with no authorization header values fails
with the empty-header error. -/
theorem extractRequestToken_errors_witness :
    ExtractRequestToken [] = ("", some "no HTTP authorization header exists") :=
  (extractRequestToken_errors []).1 (by decide)

/-- Claim C9: scheme matching in both extractors is case-sensitive — an
authorization value whose scheme differs only in case (lowercase "bearer "
or "istio ") is rejected with the "no bearer token" error rather than
stripped. -/
theorem extract_case_sensitive (v w : String)
    (hv : hasPfx v "bearer " = true) (hw : hasPfx w "istio " = true) :
    ExtractBearerToken (some [(authorizationMeta, [v])])
      = ("", some "no bearer token exists in HTTP authorization header")
    ∧ ExtractRequestToken [(authorizationMeta, [v])]
      = ("", some "no bearer token exists in HTTP authorization header")
    ∧ ExtractRequestToken [(authorizationMeta, [w])]
      = ("", some "no bearer token exists in HTTP authorization header") := by
  have hvb : hasPfx v BearerTokenPfx = false :=
    hasPfx_clash v "bearer " BearerTokenPfx hv (by decide) (by decide)
  have hvk : hasPfx v K8sTokenPfx = false :=
    hasPfx_clash v "bearer " K8sTokenPfx hv (by decide) (by decide)
  have hwb : hasPfx w BearerTokenPfx = false :=
    hasPfx_clash w "istio " BearerTokenPfx hw (by decide) (by decide)
  have hwk : hasPfx w K8sTokenPfx = false :=
    hasPfx_clash w "istio " K8sTokenPfx hw (by decide) (by decide)
  have hvne : ¬ v = "" := by rintro rfl; exact absurd hv (by decide)
  have hwne : ¬ w = "" := by rintro rfl; exact absurd hw (by decide)
  refine ⟨?_, ?_, ?_⟩
  · simp [ExtractBearerToken, List.lookup, authorizationMeta, findBearer, hvb]
  · simp [ExtractRequestToken, headerGet, List.lookup, authorizationMeta, hvne, hvb, hvk]
  · simp [ExtractRequestToken, headerGet, List.lookup, authorizationMeta, hwne, hwb, hwk]

/-- Witness for C9: "bearer abc" and "istio xyz" are both rejected. -/
theorem extract_case_sensitive_witness :
    ExtractBearerToken (some [(authorizationMeta, ["bearer abc"])])
      = ("", some "no bearer token exists in HTTP authorization header")
    ∧ ExtractRequestToken [(authorizationMeta, ["bearer abc"])]
      = ("", some "no bearer token exists in HTTP authorization header")
    ∧ ExtractRequestToken [(authorizationMeta, ["istio xyz"])]
      = ("", some "no bearer token exists in HTTP authorization header") :=
  extract_case_sensitive "bearer abc" "istio xyz" (by decide) (by decide)

/-! ### Claims about the secret lifecycle (modelled from the spec) -/

/-- Claim C8: for every cached SecretItem the time from CreatedTime until
proactive rotation is triggered equals
(ExpireTime − CreatedTime) × (1 − SecretRotationGracePeriodRatio); with
ratio 1/10 and a 1-hour (3600 s) TTL, rotation begins 360 s (6 minutes)
before expiration. -/
theorem rotation_grace_formula (resourceName : String) (key chain root : List Nat)
    (now ttl g : ℚ) :
    (rotationTriggerTime now ttl g
        - (issueSecret resourceName key chain root now ttl).CreatedTime
      = ((issueSecret resourceName key chain root now ttl).ExpireTime
          - (issueSecret resourceName key chain root now ttl).CreatedTime) * (1 - g))
    ∧ (g = 1/10 → ttl = 3600 →
        rotationTriggerTime now ttl g
          = (issueSecret resourceName key chain root now ttl).ExpireTime - 360) := by
  constructor
  · simp [rotationTriggerTime, issueSecret]
  · rintro rfl rfl
    simp only [rotationTriggerTime, issueSecret]
    ring

/-- Witness for C8: with ratio 1/10 and TTL 3600 s, the rotation trigger
instant is 360 s before the expiry of the issued item. -/
theorem rotation_grace_formula_witness :
    rotationTriggerTime 0 3600 (1/10)
      = (issueSecret "default" [] [] [] 0 3600).ExpireTime - 360 :=
  (rotation_grace_formula "default" [] [] [] 0 3600 (1/10)).2 rfl rfl

/-- Claim C7: every issued SecretItem satisfies ExpireTime > CreatedTime;
rotating it at the scheduled trigger instant produces a new SecretItem
with a strictly later ExpireTime, and once the new item is cached a lookup
for the resource name returns the new item, never the old one. -/
theorem secret_rotation_monotone (resourceName : String)
    (k1 c1 r1 k2 c2 r2 : List Nat) (now ttl g : ℚ)
    (cache : String → Option SecretItem)
    (httl : 0 < ttl) (hg : g < 1) :
    (issueSecret resourceName k1 c1 r1 now ttl).CreatedTime
      < (issueSecret resourceName k1 c1 r1 now ttl).ExpireTime
    ∧ (issueSecret resourceName k2 c2 r2 (rotationTriggerTime now ttl g) ttl).CreatedTime
      < (issueSecret resourceName k2 c2 r2 (rotationTriggerTime now ttl g) ttl).ExpireTime
    ∧ (issueSecret resourceName k1 c1 r1 now ttl).ExpireTime
      < (issueSecret resourceName k2 c2 r2 (rotationTriggerTime now ttl g) ttl).ExpireTime
    ∧ cacheSet cache resourceName
        (issueSecret resourceName k2 c2 r2 (rotationTriggerTime now ttl g) ttl) resourceName
      = some (issueSecret resourceName k2 c2 r2 (rotationTriggerTime now ttl g) ttl)
    ∧ cacheSet cache resourceName
        (issueSecret resourceName k2 c2 r2 (rotationTriggerTime now ttl g) ttl) resourceName
      ≠ some (issueSecret resourceName k1 c1 r1 now ttl) := by
  have hpos : 0 < ttl * (1 - g) := mul_pos httl (by linarith)
  refine ⟨?_, ?_, ?_, by simp [cacheSet], ?_⟩
  · simpa [issueSecret] using httl
  · simpa [issueSecret] using httl
  · simp only [issueSecret, rotationTriggerTime]
    linarith
  · intro hcontra
    have h2 : cacheSet cache resourceName
        (issueSecret resourceName k2 c2 r2 (rotationTriggerTime now ttl g) ttl) resourceName
      = some (issueSecret resourceName k2 c2 r2 (rotationTriggerTime now ttl g) ttl) := by
      simp [cacheSet]
    rw [h2] at hcontra
    have heq := Option.some.inj hcontra
    have hE := congrArg SecretItem.ExpireTime heq
    simp only [issueSecret, rotationTriggerTime] at hE
    linarith

/-- Witness for C7 at TTL 3600 s, grace ratio 1/10, creation instant 0. -/
theorem secret_rotation_monotone_witness :
    (0:ℚ) < 3600 ∧ (1/10:ℚ) < 1
    ∧ ((issueSecret "default" [] [] [] 0 3600).CreatedTime
        < (issueSecret "default" [] [] [] 0 3600).ExpireTime
      ∧ (issueSecret "default" [] [] [] (rotationTriggerTime 0 3600 (1/10)) 3600).CreatedTime
        < (issueSecret "default" [] [] [] (rotationTriggerTime 0 3600 (1/10)) 3600).ExpireTime
      ∧ (issueSecret "default" [] [] [] 0 3600).ExpireTime
        < (issueSecret "default" [] [] [] (rotationTriggerTime 0 3600 (1/10)) 3600).ExpireTime
      ∧ cacheSet (fun _ => none) "default"
          (issueSecret "default" [] [] [] (rotationTriggerTime 0 3600 (1/10)) 3600) "default"
        = some (issueSecret "default" [] [] [] (rotationTriggerTime 0 3600 (1/10)) 3600)
      ∧ cacheSet (fun _ => none) "default"
          (issueSecret "default" [] [] [] (rotationTriggerTime 0 3600 (1/10)) 3600) "default"
        ≠ some (issueSecret "default" [] [] [] 0 3600)) :=
  ⟨by norm_num, by norm_num,
    secret_rotation_monotone "default" [] [] [] [] [] [] 0 3600 (1/10) (fun _ => none)
      (by norm_num) (by norm_num)⟩

/-! ### Helper lemmas about the single-flight coordinator -/

theorem sfRequest_cache (st : SFState) (c : Nat) (r : String) :
    (sfRequest st c r).cache = st.cache := by
  unfold sfRequest
  split
  · rfl
  · split <;> rfl

theorem sfRequest_start (st : SFState) (c : Nat) (r : String)
    (hc : st.cache r = none) (hi : st.inflight r = none) :
    (sfRequest st c r).inflight r = some [c]
    ∧ (sfRequest st c r).csrSignCalls r = st.csrSignCalls r + 1 := by
  simp [sfRequest, hc, hi]

theorem sfRequest_join (st : SFState) (c : Nat) (r : String) (ws : List Nat)
    (hc : st.cache r = none) (hi : st.inflight r = some ws) :
    (sfRequest st c r).inflight r = some (c :: ws)
    ∧ (sfRequest st c r).csrSignCalls = st.csrSignCalls := by
  simp [sfRequest, hc, hi]

theorem sfRequest_other (st : SFState) (c : Nat) (r r2 : String) (hne : r2 ≠ r) :
    (sfRequest st c r).csrSignCalls r2 = st.csrSignCalls r2
    ∧ (sfRequest st c r).inflight r2 = st.inflight r2 := by
  unfold sfRequest
  split
  · exact ⟨rfl, rfl⟩
  · split <;> simp [hne]

theorem sfRequestAll_cons (st : SFState) (c : Nat) (cs : List Nat) (r : String) :
    sfRequestAll st (c :: cs) r = sfRequestAll (sfRequest st c r) cs r := rfl

theorem sfRequestAll_other (cs : List Nat) (st : SFState) (r r2 : String)
    (hne : r2 ≠ r) :
    (sfRequestAll st cs r).csrSignCalls r2 = st.csrSignCalls r2
    ∧ (sfRequestAll st cs r).inflight r2 = st.inflight r2 := by
  induction cs generalizing st with
  | nil => exact ⟨rfl, rfl⟩
  | cons c cs ih =>
    rw [sfRequestAll_cons]
    have h1 := sfRequest_other st c r r2 hne
    have h2 := ih (sfRequest st c r)
    exact ⟨h2.1.trans h1.1, h2.2.trans h1.2⟩

theorem sfRequestAll_joined (cs : List Nat) (st : SFState) (r : String) (ws : List Nat)
    (hc : st.cache r = none) (hi : st.inflight r = some ws) :
    (sfRequestAll st cs r).csrSignCalls = st.csrSignCalls
    ∧ ∃ ws2, (sfRequestAll st cs r).inflight r = some ws2
        ∧ ∀ c, c ∈ cs ∨ c ∈ ws → c ∈ ws2 := by
  induction cs generalizing st ws with
  | nil =>
    exact ⟨rfl, ws, hi, fun c h => h.resolve_left (List.not_mem_nil c)⟩
  | cons c cs ih =>
    rw [sfRequestAll_cons]
    have hj := sfRequest_join st c r ws hc hi
    have hc2 : (sfRequest st c r).cache r = none := by
      rw [sfRequest_cache]; exact hc
    obtain ⟨hcount, ws2, hinfl, hmem⟩ := ih (sfRequest st c r) (c :: ws) hc2 hj.1
    refine ⟨hcount.trans hj.2, ws2, hinfl, ?_⟩
    intro c0 h0
    rcases h0 with h0 | h0
    · rcases List.mem_cons.mp h0 with rfl | h0
      · exact hmem c0 (Or.inr (List.mem_cons_self c0 ws))
      · exact hmem c0 (Or.inl h0)
    · exact hmem c0 (Or.inr (List.mem_cons_of_mem c h0))

theorem sfComplete_delivers (st : SFState) (r : String) (item : SecretItem)
    (ws : List Nat) (hi : st.inflight r = some ws) (c : Nat) (hcw : c ∈ ws) :
    (sfComplete st r item).delivered c = some item := by
  simp [sfComplete, hi, List.contains, List.elem_iff, hcw]

/-- Claim C1: for every resource name `r`, a batch of concurrent
`GenerateSecret` callers arriving while no cached entry for `r` exists and
no issuance is in flight results in exactly one `CSRSign` call to the CA
Client, and on completion every caller receives the identical SecretItem;
the signing counter and in-flight state of every other resource name are
untouched, so callers for different resource names proceed
independently. -/
theorem generateSecret_single_flight (init : SFState) (cs : List Nat) (r : String)
    (item : SecretItem)
    (hcache : init.cache r = none) (hinflight : init.inflight r = none)
    (hcount : init.csrSignCalls r = 0) (hne : cs ≠ []) :
    (sfRequestAll init cs r).csrSignCalls r = 1
    ∧ (∀ c ∈ cs,
        (sfComplete (sfRequestAll init cs r) r item).delivered c = some item)
    ∧ (∀ r2, r2 ≠ r →
        (sfRequestAll init cs r).csrSignCalls r2 = init.csrSignCalls r2
        ∧ (sfRequestAll init cs r).inflight r2 = init.inflight r2) := by
  rcases cs with _ | ⟨c, cs⟩
  · exact absurd rfl hne
  have hstart := sfRequest_start init c r hcache hinflight
  have hc2 : (sfRequest init c r).cache r = none := by
    rw [sfRequest_cache]; exact hcache
  obtain ⟨hcnt, ws2, hinfl, hmem⟩ :=
    sfRequestAll_joined cs (sfRequest init c r) r [c] hc2 hstart.1
  rw [sfRequestAll_cons]
  refine ⟨?_, ?_, ?_⟩
  · rw [congrFun hcnt r, hstart.2, hcount]
  · intro c0 hc0
    apply sfComplete_delivers _ r item ws2 hinfl
    rcases List.mem_cons.mp hc0 with rfl | h0
    · exact hmem c0 (Or.inr (List.mem_cons_self c0 []))
    · exact hmem c0 (Or.inl h0)
  · intro r2 hr2
    have h := sfRequestAll_other (c :: cs) init r r2 hr2
    rw [sfRequestAll_cons] at h
    exact h

/-- Witness for C1: two concurrent callers for "default" from the empty
state cause exactly one CSRSign call, and both receive the same item. -/
theorem generateSecret_single_flight_witness :
    (sfRequestAll sfInit [1, 2] "default").csrSignCalls "default" = 1
    ∧ (∀ c ∈ [1, 2],
        (sfComplete (sfRequestAll sfInit [1, 2] "default") "default"
          (issueSecret "default" [] [] [] 0 3600)).delivered c
          = some (issueSecret "default" [] [] [] 0 3600))
    ∧ (∀ r2, r2 ≠ "default" →
        (sfRequestAll sfInit [1, 2] "default").csrSignCalls r2 = sfInit.csrSignCalls r2
        ∧ (sfRequestAll sfInit [1, 2] "default").inflight r2 = sfInit.inflight r2) :=
  generateSecret_single_flight sfInit [1, 2] "default"
    (issueSecret "default" [] [] [] 0 3600) rfl rfl rfl (by decide)
